import Mathlib

/-!
# Shallow embedding of `forward_emails.py`

The repository is a single Python script whose entry point
`fetch_and_forward` polls a Yahoo IMAP inbox for unread messages and
forwards each one to a Gmail address over SMTP, marking a message seen
only after its send call returned.  External calls (IMAP connect/search/
fetch/store, SMTP connect/send, the counter-file read/write) are modelled
by an environment `Env` recording the outcome of each call, and the run
is embedded as a pure function from `Env` to a `RunOut`: the run result,
the ordered trace of external effects it performed, and the counter-file
state it leaves behind.
-/

/-- Settings at the top of the script: `MAX_EMAILS_PER_RUN = 50`. -/
def MAX_EMAILS_PER_RUN : Nat := 50

/-- `MAX_RUNS_PER_DAY = 9`. -/
def MAX_RUNS_PER_DAY : Nat := 9

/-- `DELAY_BETWEEN_EMAILS = 2` (seconds slept between successful forwards). -/
def DELAY_BETWEEN_EMAILS : Nat := 2

/-- `RUN_START_TIME = time(0, 1)`, as seconds since local midnight. -/
def RUN_START_TIME : Nat := 60

/-- `RUN_END_TIME = time(9, 0)`, as seconds since local midnight. -/
def RUN_END_TIME : Nat := 32400

/-- `is_within_run_window`: `RUN_START_TIME <= current_time <= RUN_END_TIME`,
with the current wall-clock time of day given as seconds since midnight. -/
def is_within_run_window (t : Nat) : Bool :=
  decide (RUN_START_TIME ≤ t) && decide (t ≤ RUN_END_TIME)

/-- Contents of the counter file `/tmp/gmail_daily_runs.json` as the script
can observe them: the file may be absent, unreadable/unparsable (any
exception in `open`/`json.load`/`.get`), or a parsed JSON object whose
`date`, `runs` and `emails_sent` keys may each be absent (Python
`dict.get` returning `None` resp. the supplied default). -/
inductive CounterFile
  | missing
  | corrupt
  | valid (date : Option String) (runs : Option Nat) (sent : Option Nat)
deriving DecidableEq

/-- `get_daily_run_count()`: returns `(runs, emails_sent, today)`; a missing
file, a parse failure, or a stored date different from today yields
`(0, 0, today)`. -/
def get_daily_run_count (today : String) (file : CounterFile) : Nat × Nat × String :=
  match file with
  | .missing => (0, 0, today)
  | .corrupt => (0, 0, today)
  | .valid d runs sent =>
    if d ≠ some today then (0, 0, today)
    else (runs.getD 0, sent.getD 0, today)

/-- `update_daily_run_count(runs, emails_sent, date)`: overwrites the counter
file with the three fields; any write exception is caught and logged, so the
function always returns (here: returns the unchanged file on a failed write). -/
def update_daily_run_count (runs : Nat) (sent : Nat) (date : String)
    (writeOk : Bool) (file : CounterFile) : CounterFile :=
  if writeOk then .valid (some date) (some runs) (some sent) else file

/-- Outcome kinds of one SMTP `send_message` call.  The script's per-item
`except` clause treats every kind identically; the distinction exists so
that retry behaviour can be stated per failure kind. -/
inductive SendResult
  | ok
  | disconnected
  | rejected
  | authFailed
  | other
deriving DecidableEq

/-- One unread message as the run interacts with it: its IMAP identifier and
the outcomes of the fetch call (including parsing `msg_data`), the SMTP send,
and the IMAP `store +FLAGS \Seen` call. -/
structure Item where
  id : Nat
  fetchOk : Bool
  sendResult : SendResult
  markOk : Bool
deriving DecidableEq

/-- External effects of one run, in the order the script performs them. -/
inductive Effect
  | loadCounter
  | imapOpen
  | search
  | fetchMsg (id : Nat)
  | sendMsg (id : Nat)
  | markSeen (id : Nat)
  | smtpOpen
  | sleepDelay
  | saveCounter (date : String) (runs : Nat) (sent : Nat)
  | smtpQuit
  | imapClose
  | imapLogout
  | exitProcess (code : Nat)
deriving DecidableEq

/-- Environment of one invocation: wall-clock time of day (seconds since
midnight), today's date string, the counter-file contents, whether the IMAP
connect/login/select succeed, whether the UNSEEN search succeeds, the unread
messages the search returns (with their per-call outcomes), whether the SMTP
connect/login succeed, and whether the counter-file write succeeds. -/
structure Env where
  timeOfDay : Nat
  today : String
  counter : CounterFile
  imapOk : Bool
  searchOk : Bool
  unread : List Item
  smtpOk : Bool
  saveOk : Bool

/-- Effects of the per-item try block, lines 178-209 of the script: the fetch
call always happens; the send happens only if the fetch (and parse) raised no
exception; the IMAP store of `\Seen` happens only if the send returned. -/
def itemEffects (it : Item) : List Effect :=
  if it.fetchOk then
    if it.sendResult = .ok then [.fetchMsg it.id, .sendMsg it.id, .markSeen it.id]
    else [.fetchMsg it.id, .sendMsg it.id]
  else [.fetchMsg it.id]

/-- `forwarded_count` is incremented exactly when fetch, send and mark-seen
all succeeded (any exception jumps to the `except` clause first). -/
def itemForwarded (it : Item) : Bool :=
  it.fetchOk && it.sendResult == .ok && it.markOk

/-- The item's send call was made and returned success. -/
def itemSent (it : Item) : Bool := it.fetchOk && it.sendResult == .ok

/-- The item's fetch succeeded, so a send call was made for it. -/
def itemTriedSend (it : Item) : Bool := it.fetchOk

/-- Result of the processing loop: its effect trace and the final
`forwarded_count` and `failed_count`. -/
structure LoopOut where
  trace : List Effect
  fwd : Nat
  fl : Nat
deriving DecidableEq

/-- The `for i, num in enumerate(email_ids_to_process, 1)` loop: items are
processed strictly sequentially; a fully successful item sleeps
`DELAY_BETWEEN_EMAILS` unless it is the last (`i < processing_count`); a
failed item increments `failed_count` and the loop continues. -/
def processItems (count : Nat) : Nat → List Item → LoopOut
  | _, [] => ⟨[], 0, 0⟩
  | i, it :: rest =>
    let head := itemEffects it ++
      (if itemForwarded it && decide (i < count) then [.sleepDelay] else [])
    let tail := processItems count (i + 1) rest
    ⟨head ++ tail.trace,
      (if itemForwarded it then 1 else 0) + tail.fwd,
      (if itemForwarded it then 0 else 1) + tail.fl⟩

/-- How one run ends: skipped by the time-window gate, skipped by the daily
run quota, the empty-inbox early return, a fatal `sys.exit(1)` from an
IMAP/SMTP exception, or a completed batch with the four tallies
(total unread, attempted, forwarded, failed). -/
inductive RunResult
  | skippedWindow
  | skippedQuota
  | emptyInbox
  | fatal
  | finished (total attempted forwarded failed : Nat)
deriving DecidableEq

/-- Everything observable about one run: its result, its ordered external
effect trace, and the counter-file state after it. -/
structure RunOut where
  result : RunResult
  trace : List Effect
  counterAfter : CounterFile
deriving DecidableEq

/-- `fetch_and_forward()`, the script's entry point, as a function of the
environment.  Mirrors the script's control flow: time-window gate (before any
I/O), counter read, quota gate, IMAP connect, UNSEEN search, empty-inbox
early return, SMTP connect, the per-item loop over the first
`MAX_EMAILS_PER_RUN` identifiers, counter update, then cleanup
(`smtp.quit(); mail.close(); mail.logout()`).  An IMAP or SMTP exception
outside the per-item try is caught by the outer handlers, which log and call
`sys.exit(1)` without any logout/quit. -/
def fetch_and_forward (env : Env) : RunOut :=
  if is_within_run_window env.timeOfDay = true then
    let g := get_daily_run_count env.today env.counter
    let runsT := g.1
    let sentT := g.2.1
    let today := g.2.2
    if MAX_RUNS_PER_DAY ≤ runsT then ⟨.skippedQuota, [.loadCounter], env.counter⟩
    else if env.imapOk = false then
      ⟨.fatal, [.loadCounter, .exitProcess 1], env.counter⟩
    else if env.searchOk = false then
      ⟨.fatal, [.loadCounter, .imapOpen, .exitProcess 1], env.counter⟩
    else if env.unread = [] then
      ⟨.emptyInbox, [.loadCounter, .imapOpen, .search, .imapClose, .imapLogout], env.counter⟩
    else if env.smtpOk = false then
      ⟨.fatal, [.loadCounter, .imapOpen, .search, .exitProcess 1], env.counter⟩
    else
      let batch := env.unread.take MAX_EMAILS_PER_RUN
      let p := processItems batch.length 1 batch
      ⟨.finished env.unread.length batch.length p.fwd p.fl,
        [.loadCounter, .imapOpen, .search, .smtpOpen] ++ p.trace
          ++ [.saveCounter today (runsT + 1) (sentT + p.fwd), .smtpQuit, .imapClose, .imapLogout],
        update_daily_run_count (runsT + 1) (sentT + p.fwd) today env.saveOk env.counter⟩
  else ⟨.skippedWindow, [], env.counter⟩

/-- The run reaches the UNSEEN search: in window, under quota, IMAP up,
search succeeded. -/
def reachesSearch (env : Env) : Bool :=
  is_within_run_window env.timeOfDay
    && decide ((get_daily_run_count env.today env.counter).1 < MAX_RUNS_PER_DAY)
    && env.imapOk && env.searchOk

/-- The run reaches the per-item processing loop. -/
def reachesLoop (env : Env) : Bool :=
  reachesSearch env && decide (env.unread ≠ []) && env.smtpOk

/-- The batch: first `MAX_EMAILS_PER_RUN` unread identifiers,
`email_ids[:MAX_EMAILS_PER_RUN]`. -/
def batchOf (env : Env) : List Item :=
  env.unread.take MAX_EMAILS_PER_RUN

/-- IMAP identifiers of the fetch attempts in a trace, in order. -/
def fetchedIds (tr : List Effect) : List Nat :=
  tr.filterMap (fun e => match e with | .fetchMsg id => some id | _ => none)

/-- Effects that are calls on the MessageStore (IMAP) or Transport (SMTP)
sessions, as opposed to counter-file access, sleeping, or process exit. -/
def isStoreOrTransport : Effect → Bool
  | .loadCounter => false
  | .sleepDelay => false
  | .saveCounter _ _ _ => false
  | .exitProcess _ => false
  | _ => true

/-- The loop outcome of a run that reaches the loop. -/
def loopPart (env : Env) : LoopOut :=
  processItems (batchOf env).length 1 (batchOf env)

/-- `runs_today` as read at the start of the run. -/
def runsBefore (env : Env) : Nat := (get_daily_run_count env.today env.counter).1

/-- `emails_sent_today` as read at the start of the run. -/
def sentBefore (env : Env) : Nat := (get_daily_run_count env.today env.counter).2.1

/-- Every prefix of the trace holds at least as many send calls for `id` as
mark-seen calls for `id`: each mark of a message is preceded by its send. -/
def sendCovers (id : Nat) (tr : List Effect) : Prop :=
  ∀ n : Nat, ((tr.take n).count (.markSeen id)) ≤ ((tr.take n).count (.sendMsg id))

/-- Forwarded tally of a finished run; 0 on the other results. -/
def RunResult.forwardedCount : RunResult → Nat
  | .finished _ _ f _ => f
  | _ => 0

/-- Failed tally of a finished run; 0 on the other results. -/
def RunResult.failedCount : RunResult → Nat
  | .finished _ _ _ f => f
  | _ => 0

/-- Results on which the script runs its cleanup code or returns after
explicit `close`/`logout` calls (as opposed to `sys.exit(1)` paths and the
gate returns, which open no session or abandon the open ones). -/
def RunResult.isNormalExitPath : RunResult → Bool
  | .emptyInbox => true
  | .finished _ _ _ _ => true
  | _ => false

/-- Counter-file states that `get_daily_run_count` treats as absent, broken
or stale: no file, unparsable contents, or a stored date other than today. -/
def staleOrBroken (today : String) : CounterFile → Bool
  | .missing => true
  | .corrupt => true
  | .valid d _ _ => decide (d ≠ some today)

/-- A fetched message as the script sees it after
`email.message_from_bytes`: the `Subject` and `From` headers (absent when
the source lacks them) and the remaining raw bytes.  Header values are
character lists, so a subject may contain `\n`/`\r`. -/
structure EmailMessage where
  subject : Option (List Char)
  fromAddr : Option (List Char)
  rawBytes : List Nat
deriving DecidableEq

/-- The message handed to `smtp.send_message(email_message, YAHOO_EMAIL,
GMAIL_EMAIL)`: the parsed source message itself, unchanged — the script
builds no new outbound message and rewrites no header. -/
def forwardedMessage (m : EmailMessage) : EmailMessage := m

/-- `email_message.get('Subject', 'No Subject')`. -/
def headerSubject (m : EmailMessage) : List Char :=
  m.subject.getD ("No Subject".toList)

/-- The subject string the script logs: truncated to 57 characters plus
`...` when longer than 60 characters (lines 189-190); used only in `log`
calls, never in the outbound message. -/
def loggedSubject (m : EmailMessage) : List Char :=
  if 60 < (headerSubject m).length
  then (headerSubject m).take 57 ++ ('.' :: '.' :: '.' :: [])
  else headerSubject m

/-- A source message whose subject contains a line feed. -/
def subjectWithNewline : EmailMessage :=
  ⟨some ('H' :: 'i' :: '\n' :: 'B' :: 'c' :: 'c' :: ':' :: []), some ('a' :: []), []⟩

/-- A run in which everything is up and the two unread messages fetch fine;
the first sends successfully, the second is rejected by the transport. -/
def envHappy : Env :=
  { timeOfDay := 3600, today := "2026-01-02", counter := .missing,
    imapOk := true, searchOk := true,
    unread := [⟨1, true, .ok, true⟩, ⟨2, true, .rejected, true⟩],
    smtpOk := true, saveOk := true }

/-- A run whose single message hits a transport disconnect on send. -/
def envDisconnect : Env := { envHappy with unread := [⟨7, true, .disconnected, true⟩] }

/-- A run in which the SMTP connect fails after the IMAP session is open. -/
def envSmtpDown : Env := { envHappy with unread := [⟨5, true, .ok, true⟩], smtpOk := false }

/-- A run that has already used all `MAX_RUNS_PER_DAY` runs today. -/
def envQuotaHit : Env := { envHappy with counter := .valid (some "2026-01-02") (some 9) (some 10) }

/-- A run whose UNSEEN search returns no messages. -/
def envEmptyInbox : Env := { envHappy with unread := [] }

lemma fetchedIds_append (t₁ t₂ : List Effect) :
    fetchedIds (t₁ ++ t₂) = fetchedIds t₁ ++ fetchedIds t₂ :=
  List.filterMap_append ..

lemma fetchedIds_itemEffects (it : Item) : fetchedIds (itemEffects it) = [it.id] := by
  unfold itemEffects fetchedIds
  split <;> [skip; rfl]
  split <;> rfl

lemma processItems_fetchedIds (c : Nat) (items : List Item) : ∀ i : Nat,
    fetchedIds (processItems c i items).trace = items.map Item.id := by
  induction items with
  | nil => intro i; rfl
  | cons it rest ih =>
    intro i
    show fetchedIds ((itemEffects it ++ _) ++ (processItems c (i+1) rest).trace) = _
    rw [fetchedIds_append, fetchedIds_append, fetchedIds_itemEffects, ih]
    have : fetchedIds (if itemForwarded it && decide (i < c) then [.sleepDelay] else []) = [] := by
      split <;> rfl
    rw [this]
    simp [List.map_cons]

lemma count_mark_itemEffects (it : Item) (id : Nat) :
    (itemEffects it).count (.markSeen id) =
      if it.id = id ∧ itemSent it = true then 1 else 0 := by
  unfold itemEffects itemSent
  rcases it with ⟨a, fo, sr, mo⟩
  cases fo
  · by_cases h : a = id <;> simp [h, List.count_cons]
  · cases sr <;> by_cases h : a = id <;> simp [h, List.count_cons]

lemma count_send_itemEffects (it : Item) (id : Nat) :
    (itemEffects it).count (.sendMsg id) =
      if it.id = id ∧ itemTriedSend it = true then 1 else 0 := by
  unfold itemEffects itemTriedSend
  rcases it with ⟨a, fo, sr, mo⟩
  cases fo
  · by_cases h : a = id <;> simp [h, List.count_cons]
  · cases sr <;> by_cases h : a = id <;> simp [h, List.count_cons]

lemma count_mark_sleepPart (b : Bool) (id : Nat) :
    (if b then [Effect.sleepDelay] else []).count (.markSeen id) = 0 := by
  cases b <;> simp [List.count_cons]

lemma count_send_sleepPart (b : Bool) (id : Nat) :
    (if b then [Effect.sleepDelay] else []).count (.sendMsg id) = 0 := by
  cases b <;> simp [List.count_cons]

lemma processItems_count_mark (c : Nat) (items : List Item) (id : Nat) : ∀ i : Nat,
    (processItems c i items).trace.count (.markSeen id) =
      items.countP (fun it => decide (it.id = id) && itemSent it) := by
  induction items with
  | nil => intro i; rfl
  | cons it rest ih =>
    intro i
    show ((itemEffects it ++ _) ++ (processItems c (i+1) rest).trace).count _ = _
    rw [List.count_append, List.count_append, count_mark_itemEffects,
      count_mark_sleepPart, ih, List.countP_cons]
    by_cases h : it.id = id ∧ itemSent it = true
    · simp [h.1, h.2, Nat.add_comm]
    · rw [if_neg h]
      rcases Decidable.not_and_iff_or_not.mp h with h' | h' <;> simp [h']

lemma processItems_count_send (c : Nat) (items : List Item) (id : Nat) : ∀ i : Nat,
    (processItems c i items).trace.count (.sendMsg id) =
      items.countP (fun it => decide (it.id = id) && itemTriedSend it) := by
  induction items with
  | nil => intro i; rfl
  | cons it rest ih =>
    intro i
    show ((itemEffects it ++ _) ++ (processItems c (i+1) rest).trace).count _ = _
    rw [List.count_append, List.count_append, count_send_itemEffects,
      count_send_sleepPart, ih, List.countP_cons]
    by_cases h : it.id = id ∧ itemTriedSend it = true
    · simp [h.1, h.2, Nat.add_comm]
    · rw [if_neg h]
      rcases Decidable.not_and_iff_or_not.mp h with h' | h' <;> simp [h']

lemma processItems_fwd (c : Nat) (items : List Item) : ∀ i : Nat,
    (processItems c i items).fwd = items.countP itemForwarded := by
  induction items with
  | nil => intro i; rfl
  | cons it rest ih =>
    intro i
    show (if itemForwarded it then 1 else 0) + (processItems c (i+1) rest).fwd = _
    rw [ih, List.countP_cons]
    cases h : itemForwarded it <;> simp [h, Nat.add_comm]

lemma processItems_fl (c : Nat) (items : List Item) : ∀ i : Nat,
    (processItems c i items).fl = items.countP (fun it => ! itemForwarded it) := by
  induction items with
  | nil => intro i; rfl
  | cons it rest ih =>
    intro i
    show (if itemForwarded it then 0 else 1) + (processItems c (i+1) rest).fl = _
    rw [ih, List.countP_cons]
    cases h : itemForwarded it <;> simp [h, Nat.add_comm]

lemma sendCovers_append {id : Nat} {t₁ t₂ : List Effect}
    (h₁ : sendCovers id t₁) (h₂ : sendCovers id t₂) : sendCovers id (t₁ ++ t₂) := by
  intro n
  rw [List.take_append_eq_append_take, List.count_append, List.count_append]
  exact Nat.add_le_add (h₁ n) (h₂ (n - t₁.length))

lemma sendCovers_of_not_mem {id : Nat} {tr : List Effect}
    (h : Effect.markSeen id ∉ tr) : sendCovers id tr := by
  intro n
  have : Effect.markSeen id ∉ tr.take n := fun hm => h (List.mem_of_mem_take hm)
  simp [List.count_eq_zero_of_not_mem this]

lemma sendCovers_itemEffects (id : Nat) (it : Item) : sendCovers id (itemEffects it) := by
  unfold itemEffects
  split
  · split
    · intro n
      match n with
      | 0 => simp
      | 1 => simp [List.count_cons]
      | 2 => simp [List.count_cons]
      | (k+3) =>
        by_cases h : it.id = id <;>
          simp [List.take_succ_cons, List.count_cons, h]
    · exact sendCovers_of_not_mem (by simp [itemEffects])
  · exact sendCovers_of_not_mem (by simp)

lemma processItems_sendCovers (c : Nat) (items : List Item) (id : Nat) : ∀ i : Nat,
    sendCovers id (processItems c i items).trace := by
  induction items with
  | nil => intro i n; simp [processItems]
  | cons it rest ih =>
    intro i
    show sendCovers id ((itemEffects it ++ _) ++ (processItems c (i+1) rest).trace)
    refine sendCovers_append (sendCovers_append (sendCovers_itemEffects id it) ?_) (ih _)
    exact sendCovers_of_not_mem (by split <;> simp)

lemma run_eq_of_reachesLoop (env : Env) (h : reachesLoop env = true) :
    fetch_and_forward env =
      let g := get_daily_run_count env.today env.counter
      let p := processItems (batchOf env).length 1 (batchOf env)
      ⟨.finished env.unread.length (batchOf env).length p.fwd p.fl,
        [.loadCounter, .imapOpen, .search, .smtpOpen] ++ p.trace
          ++ [.saveCounter g.2.2 (g.1 + 1) (g.2.1 + p.fwd), .smtpQuit, .imapClose, .imapLogout],
        update_daily_run_count (g.1 + 1) (g.2.1 + p.fwd) g.2.2 env.saveOk env.counter⟩ := by
  unfold reachesLoop reachesSearch at h
  simp only [Bool.and_eq_true, decide_eq_true_eq] at h
  obtain ⟨⟨⟨⟨⟨hw, hq⟩, hi⟩, hs⟩, hne⟩, hsm⟩ := h
  unfold fetch_and_forward batchOf
  rw [if_pos hw, if_neg (Nat.not_le.mpr hq), if_neg (by simp [hi]),
    if_neg (by simp [hs]), if_neg hne, if_neg (by simp [hsm])]

lemma run_cases (env : Env) :
    reachesLoop env = true ∨
      reachesLoop env = false ∧
      (fetch_and_forward env = ⟨.skippedWindow, [], env.counter⟩ ∨
       fetch_and_forward env = ⟨.skippedQuota, [.loadCounter], env.counter⟩ ∨
       fetch_and_forward env = ⟨.fatal, [.loadCounter, .exitProcess 1], env.counter⟩ ∨
       fetch_and_forward env = ⟨.fatal, [.loadCounter, .imapOpen, .exitProcess 1], env.counter⟩ ∨
       fetch_and_forward env
          = ⟨.emptyInbox, [.loadCounter, .imapOpen, .search, .imapClose, .imapLogout], env.counter⟩ ∨
       fetch_and_forward env
          = ⟨.fatal, [.loadCounter, .imapOpen, .search, .exitProcess 1], env.counter⟩) := by
  by_cases hw : is_within_run_window env.timeOfDay = true
  case neg => right; simp [fetch_and_forward, reachesLoop, reachesSearch, hw]
  by_cases hq : MAX_RUNS_PER_DAY ≤ (get_daily_run_count env.today env.counter).1
  case pos => right; simp [fetch_and_forward, reachesLoop, reachesSearch, hw, hq, Nat.not_lt.mpr hq]
  by_cases hi : env.imapOk = false
  case pos => right; simp [fetch_and_forward, reachesLoop, reachesSearch, hw, hq, hi]
  by_cases hs : env.searchOk = false
  case pos => right; simp [fetch_and_forward, reachesLoop, reachesSearch, hw, hq, hi, hs]
  by_cases hne : env.unread = []
  case pos => right; simp [fetch_and_forward, reachesLoop, reachesSearch, hw, hq, hi, hs, hne]
  by_cases hsm : env.smtpOk = false
  case pos => right; simp [fetch_and_forward, reachesLoop, reachesSearch, hw, hq, hi, hs, hne, hsm]
  left
  simp only [Bool.not_eq_false] at hi hs hsm
  simp [reachesLoop, reachesSearch, hw, Nat.not_le.mp hq, hi, hs, hne, hsm]

lemma get_daily_run_count_third (t : String) (f : CounterFile) :
    (get_daily_run_count t f).2.2 = t := by
  rcases f with _ | _ | ⟨d, r, sn⟩ <;> simp only [get_daily_run_count]
  split <;> rfl

lemma trace_of_reachesLoop (env : Env) (h : reachesLoop env = true) :
    (fetch_and_forward env).trace =
      [.loadCounter, .imapOpen, .search, .smtpOpen] ++ (loopPart env).trace
        ++ [.saveCounter env.today (runsBefore env + 1) (sentBefore env + (loopPart env).fwd),
            .smtpQuit, .imapClose, .imapLogout] := by
  rw [run_eq_of_reachesLoop env h]
  simp only [get_daily_run_count_third]
  rfl

lemma result_of_reachesLoop (env : Env) (h : reachesLoop env = true) :
    (fetch_and_forward env).result =
      .finished env.unread.length (batchOf env).length (loopPart env).fwd (loopPart env).fl := by
  rw [run_eq_of_reachesLoop env h]
  rfl

lemma run_count_mark (env : Env) (h : reachesLoop env = true) (id : Nat) :
    (fetch_and_forward env).trace.count (.markSeen id) =
      (batchOf env).countP (fun it => decide (it.id = id) && itemSent it) := by
  rw [trace_of_reachesLoop env h, List.count_append, List.count_append]
  rw [show (loopPart env).trace.count (Effect.markSeen id)
        = (batchOf env).countP (fun it => decide (it.id = id) && itemSent it) from
      processItems_count_mark _ _ _ _]
  simp [List.count_cons]

lemma run_count_send (env : Env) (h : reachesLoop env = true) (id : Nat) :
    (fetch_and_forward env).trace.count (.sendMsg id) =
      (batchOf env).countP (fun it => decide (it.id = id) && itemTriedSend it) := by
  rw [trace_of_reachesLoop env h, List.count_append, List.count_append]
  rw [show (loopPart env).trace.count (Effect.sendMsg id)
        = (batchOf env).countP (fun it => decide (it.id = id) && itemTriedSend it) from
      processItems_count_send _ _ _ _]
  simp [List.count_cons]

lemma nodup_countP_le_one {l : List Item} (hnd : (l.map Item.id).Nodup)
    (id : Nat) (q : Item → Bool) :
    l.countP (fun it => decide (it.id = id) && q it) ≤ 1 := by
  have h1 : (l.map Item.id).count id ≤ 1 := List.nodup_iff_count_le_one.mp hnd id
  rw [List.count_eq_countP, List.countP_map] at h1
  refine le_trans (List.countP_mono_left ?_) h1
  intro it _ hp
  simp only [Bool.and_eq_true, decide_eq_true_eq] at hp
  simp [Function.comp, hp.1]

lemma mem_fetchedIds {id : Nat} {tr : List Effect} :
    id ∈ fetchedIds tr ↔ Effect.fetchMsg id ∈ tr := by
  unfold fetchedIds
  rw [List.mem_filterMap]
  constructor
  · rintro ⟨e, he, hfe⟩
    cases e <;> simp_all
  · intro hm
    exact ⟨.fetchMsg id, hm, rfl⟩

lemma run_fetchedIds (env : Env) (h : reachesLoop env = true) :
    fetchedIds (fetch_and_forward env).trace = (batchOf env).map Item.id := by
  rw [trace_of_reachesLoop env h, fetchedIds_append, fetchedIds_append]
  rw [show fetchedIds (loopPart env).trace = (batchOf env).map Item.id from
    processItems_fetchedIds _ _ _]
  simp [fetchedIds]

lemma countP_not_add (l : List Item) :
    l.countP itemForwarded + l.countP (fun it => ! itemForwarded it) = l.length := by
  induction l with
  | nil => rfl
  | cons it rest ih =>
    rw [List.countP_cons, List.countP_cons, List.length_cons]
    cases h : itemForwarded it <;> simp [h] <;> omega

lemma processItems_no_smtpOpen (c : Nat) (items : List Item) : ∀ i : Nat,
    Effect.smtpOpen ∉ (processItems c i items).trace := by
  induction items with
  | nil => intro i; simp [processItems]
  | cons it rest ih =>
    intro i
    show Effect.smtpOpen ∉ (itemEffects it ++ _) ++ (processItems c (i+1) rest).trace
    simp only [List.mem_append]
    rintro ((hm | hm) | hm)
    · revert hm
      unfold itemEffects
      split
      · split <;> simp
      · simp
    · revert hm
      split <;> simp
    · exact ih (i+1) hm

lemma run_saveOk_indep (env : Env) (b : Bool) :
    (fetch_and_forward { env with saveOk := b }).result = (fetch_and_forward env).result
    ∧ (fetch_and_forward { env with saveOk := b }).trace = (fetch_and_forward env).trace := by
  unfold fetch_and_forward
  by_cases hw : is_within_run_window env.timeOfDay = true <;>
    by_cases hq : MAX_RUNS_PER_DAY ≤ (get_daily_run_count env.today env.counter).1 <;>
    by_cases hi : env.imapOk = false <;>
    by_cases hs : env.searchOk = false <;>
    by_cases hne : env.unread = [] <;>
    by_cases hsm : env.smtpOk = false <;>
    simp [hw, hq, hi, hs, hne, hsm]

/-- C1: for every fetched message, the IMAP `\Seen` store is invoked exactly
for the messages whose SMTP send returned success; with distinct identifiers
in the batch it is invoked at most once per identifier per run, and in every
trace prefix the send for an identifier precedes its mark. -/
theorem C1_mark_iff_send_success (env : Env)
    (hnd : ((batchOf env).map Item.id).Nodup) :
    ∀ id : Nat,
      (Effect.markSeen id ∈ (fetch_and_forward env).trace ↔
        reachesLoop env = true ∧ ∃ it ∈ batchOf env, it.id = id ∧ itemSent it = true)
      ∧ (fetch_and_forward env).trace.count (Effect.markSeen id) ≤ 1
      ∧ sendCovers id (fetch_and_forward env).trace := by
  intro id
  rcases run_cases env with h | ⟨hf, htr⟩
  · refine ⟨?_, ?_, ?_⟩
    · rw [← List.count_pos_iff, run_count_mark env h id]
      rw [List.countP_pos_iff]
      constructor
      · rintro ⟨it, hmem, hp⟩
        simp only [Bool.and_eq_true, decide_eq_true_eq] at hp
        exact ⟨h, it, hmem, hp.1, hp.2⟩
      · rintro ⟨-, it, hmem, h1, h2⟩
        exact ⟨it, hmem, by simp [h1, h2]⟩
    · rw [run_count_mark env h id]
      exact nodup_countP_le_one hnd id _
    · rw [trace_of_reachesLoop env h]
      refine sendCovers_append (sendCovers_append ?_ ?_) ?_
      · exact sendCovers_of_not_mem (by simp)
      · exact processItems_sendCovers _ _ _ _
      · exact sendCovers_of_not_mem (by simp)
  · have hnm : Effect.markSeen id ∉ (fetch_and_forward env).trace := by
      rcases htr with h1 | h1 | h1 | h1 | h1 | h1 <;> rw [h1] <;> simp
    refine ⟨⟨fun hm => absurd hm hnm, ?_⟩, ?_, sendCovers_of_not_mem hnm⟩
    · rintro ⟨hl, -⟩
      rw [hf] at hl
      cases hl
    · simp [List.count_eq_zero_of_not_mem hnm]

/-- C1 witness: in the concrete run `envHappy` the successfully sent
message 1 is marked seen. -/
theorem C1_mark_iff_send_success_witness :
    Effect.markSeen 1 ∈ (fetch_and_forward envHappy).trace :=
  (C1_mark_iff_send_success envHappy (by decide) 1).1.mpr (by decide)

/-- C2 counterexample: a source subject containing a line feed reaches the
outbound (forwarded) message with the line feed intact — the script strips
nothing, so the claimed sanitization does not exist. -/
theorem C2_subject_counterexample :
    '\n' ∈ (subjectWithNewline.subject.getD [])
    ∧ '\n' ∈ ((forwardedMessage subjectWithNewline).subject.getD []) := by decide

/-- C2 amended: the forwarded message is the fetched source message
unchanged (no header, in particular no subject, is rewritten), and the
60-character truncation applies only to the logged subject, which indeed
never exceeds 60 characters. -/
theorem C2_no_subject_sanitization (m : EmailMessage) :
    forwardedMessage m = m ∧ (loggedSubject m).length ≤ 60 := by
  refine ⟨rfl, ?_⟩
  unfold loggedSubject
  split
  · rename_i hlen
    rw [List.length_append, List.length_take]
    have := Nat.min_le_left 57 (headerSubject m).length
    simp only [List.length_cons, List.length_nil]
    omega
  · rename_i hlen
    omega

/-- C3 counterexample: a message whose send fails with the
transient-disconnect kind gets exactly one send call and the SMTP session is
opened exactly once — no reconnect and no retry happen, contrary to the
claimed reconnect-once-retry-once policy; the item is simply counted
failed. -/
theorem C3_retry_counterexample :
    (fetch_and_forward envDisconnect).trace.count (.sendMsg 7) = 1
    ∧ (fetch_and_forward envDisconnect).trace.count .smtpOpen = 1
    ∧ (fetch_and_forward envDisconnect).result = .finished 1 1 0 1 := by decide

/-- C3 amended: no failure kind is retried — the SMTP session is opened
exactly once per run (no reconnect ever), each identifier's send is called
at most once, and an item whose send call fails (any kind, including
transient disconnect) is surfaced as a per-item failure. -/
theorem C3_no_retry_on_failure (env : Env) (h : reachesLoop env = true)
    (hnd : ((batchOf env).map Item.id).Nodup) :
    (fetch_and_forward env).trace.count .smtpOpen = 1
    ∧ (∀ id, (fetch_and_forward env).trace.count (.sendMsg id) ≤ 1)
    ∧ (∀ it ∈ batchOf env, it.fetchOk = true → it.sendResult ≠ .ok →
        0 < (fetch_and_forward env).result.failedCount) := by
  refine ⟨?_, ?_, ?_⟩
  · rw [trace_of_reachesLoop env h, List.count_append, List.count_append]
    rw [List.count_eq_zero_of_not_mem
      (show Effect.smtpOpen ∉ (loopPart env).trace from processItems_no_smtpOpen _ _ _)]
    simp [List.count_cons]
  · intro id
    rw [run_count_send env h id]
    exact nodup_countP_le_one hnd id _
  · intro it hmem hf hs
    rw [result_of_reachesLoop env h]
    show 0 < (loopPart env).fl
    rw [show (loopPart env).fl = (batchOf env).countP (fun it => ! itemForwarded it) from
      processItems_fl _ _ _]
    rw [List.countP_pos_iff]
    refine ⟨it, hmem, ?_⟩
    unfold itemForwarded
    simp [hf, hs]

/-- C3 witness: the concrete run `envHappy` opens the SMTP session exactly
once. -/
theorem C3_no_retry_on_failure_witness :
    (fetch_and_forward envHappy).trace.count .smtpOpen = 1 :=
  (C3_no_retry_on_failure envHappy (by decide) (by decide)).1

/-- C4: a run that reaches the loop attempts exactly
`min(totalUnread, MAX_EMAILS_PER_RUN)` items, and the attempted identifiers
are precisely the first identifiers of the unread list in the store's
order. -/
theorem C4_batch_bound (env : Env) (h : reachesLoop env = true) :
    (fetch_and_forward env).result
      = .finished env.unread.length (min env.unread.length MAX_EMAILS_PER_RUN)
          ((batchOf env).countP itemForwarded)
          ((batchOf env).countP (fun it => ! itemForwarded it))
    ∧ fetchedIds (fetch_and_forward env).trace
        = (env.unread.map Item.id).take MAX_EMAILS_PER_RUN := by
  constructor
  · rw [result_of_reachesLoop env h]
    have hb : (batchOf env).length = min env.unread.length MAX_EMAILS_PER_RUN := by
      unfold batchOf
      rw [List.length_take, Nat.min_comm]
    have hf : (loopPart env).fwd = (batchOf env).countP itemForwarded :=
      processItems_fwd _ _ _
    have hl : (loopPart env).fl = (batchOf env).countP (fun it => ! itemForwarded it) :=
      processItems_fl _ _ _
    rw [hb, hf, hl]
  · rw [run_fetchedIds env h]
    unfold batchOf
    rw [List.map_take]

/-- C4 witness: on the two-message run `envHappy` the tallies are exactly
the claimed ones. -/
theorem C4_batch_bound_witness :
    (fetch_and_forward envHappy).result
      = .finished envHappy.unread.length (min envHappy.unread.length MAX_EMAILS_PER_RUN)
          ((batchOf envHappy).countP itemForwarded)
          ((batchOf envHappy).countP (fun it => ! itemForwarded it)) :=
  (C4_batch_bound envHappy (by decide)).1

/-- C5: every batch item is attempted (its fetch call appears in the trace)
regardless of other items' failures, the failed tally counts exactly the
items that did not fully forward, and forwarded + failed covers the whole
batch — no single failure aborts the batch. -/
theorem C5_non_abort_on_failure (env : Env) (h : reachesLoop env = true) :
    (∀ it ∈ batchOf env, Effect.fetchMsg it.id ∈ (fetch_and_forward env).trace)
    ∧ (fetch_and_forward env).result.failedCount
        = (batchOf env).countP (fun it => ! itemForwarded it)
    ∧ (fetch_and_forward env).result.forwardedCount = (batchOf env).countP itemForwarded
    ∧ (fetch_and_forward env).result.forwardedCount + (fetch_and_forward env).result.failedCount
        = (batchOf env).length := by
  have hr := result_of_reachesLoop env h
  have hfw : (fetch_and_forward env).result.forwardedCount
      = (batchOf env).countP itemForwarded := by
    rw [hr]
    exact processItems_fwd _ _ _
  have hfl : (fetch_and_forward env).result.failedCount
      = (batchOf env).countP (fun it => ! itemForwarded it) := by
    rw [hr]
    exact processItems_fl _ _ _
  refine ⟨?_, hfl, hfw, ?_⟩
  · intro it hmem
    rw [← mem_fetchedIds, run_fetchedIds env h]
    exact List.mem_map_of_mem _ hmem
  · rw [hfw, hfl]
    exact countP_not_add _

/-- C5 witness: on `envHappy` (one success, one rejection) forwarded and
failed together cover the batch. -/
theorem C5_non_abort_on_failure_witness :
    (fetch_and_forward envHappy).result.forwardedCount
        + (fetch_and_forward envHappy).result.failedCount
      = (batchOf envHappy).length :=
  (C5_non_abort_on_failure envHappy (by decide)).2.2.2

/-- C6: outside the time window, or with the daily run quota reached, the
run returns a skipped result having performed no MessageStore or Transport
call and leaving the persisted counter state untouched. -/
theorem C6_gate_skip (env : Env)
    (h : is_within_run_window env.timeOfDay = false ∨ MAX_RUNS_PER_DAY ≤ runsBefore env) :
    ((fetch_and_forward env).result = .skippedWindow ∨
      (fetch_and_forward env).result = .skippedQuota)
    ∧ (∀ e ∈ (fetch_and_forward env).trace, isStoreOrTransport e = false)
    ∧ (fetch_and_forward env).counterAfter = env.counter := by
  by_cases hw : is_within_run_window env.timeOfDay = true
  · have hq : MAX_RUNS_PER_DAY ≤ runsBefore env := by
      rcases h with h | h
      · rw [hw] at h; cases h
      · exact h
    unfold runsBefore at hq
    unfold fetch_and_forward
    rw [if_pos hw, if_pos hq]
    refine ⟨Or.inr rfl, ?_, rfl⟩
    intro e he
    simp only [List.mem_singleton] at he
    rw [he]
    rfl
  · unfold fetch_and_forward
    rw [if_neg hw]
    exact ⟨Or.inl rfl, by simp, rfl⟩

/-- C6 witness: the quota-hit run `envQuotaHit` leaves the counter file
untouched. -/
theorem C6_gate_skip_witness :
    (fetch_and_forward envQuotaHit).counterAfter = envQuotaHit.counter :=
  (C6_gate_skip envQuotaHit (by decide)).2.2

/-- C7: on a missing, unparsable or stale-dated counter file the load
returns the fresh state `(0, 0, today)`, and the outcome of a failed save
is invisible to the run — result and trace do not depend on whether the
counter-file write succeeds. -/
theorem C7_fresh_state_and_besteffort_save (today : String) (file : CounterFile)
    (h : staleOrBroken today file = true) :
    get_daily_run_count today file = (0, 0, today)
    ∧ ∀ env : Env, ∀ b : Bool,
        (fetch_and_forward { env with saveOk := b }).result = (fetch_and_forward env).result
        ∧ (fetch_and_forward { env with saveOk := b }).trace = (fetch_and_forward env).trace := by
  refine ⟨?_, fun env b => run_saveOk_indep env b⟩
  rcases file with _ | _ | ⟨d, r, sn⟩
  · rfl
  · rfl
  · unfold staleOrBroken at h
    rw [decide_eq_true_eq] at h
    simp only [get_daily_run_count]
    rw [if_pos h]

/-- C7 witness: loading a missing counter file yields the fresh state. -/
theorem C7_fresh_state_and_besteffort_save_witness :
    get_daily_run_count ("2026-01-02") CounterFile.missing = (0, 0, "2026-01-02") :=
  (C7_fresh_state_and_besteffort_save ("2026-01-02") CounterFile.missing (by decide)).1

/-- C8 counterexample: when the SMTP connect raises after the IMAP session
was opened, the script exits the process without any `close`/`logout` — the
opened MessageStore session is not released on this exit path, refuting the
release-on-every-exit-path claim. -/
theorem C8_release_counterexample :
    Effect.imapOpen ∈ (fetch_and_forward envSmtpDown).trace
    ∧ Effect.imapLogout ∉ (fetch_and_forward envSmtpDown).trace
    ∧ Effect.smtpQuit ∉ (fetch_and_forward envSmtpDown).trace
    ∧ (fetch_and_forward envSmtpDown).result = .fatal := by decide

/-- C8 amended: on the normal exit paths (empty-inbox early return and
completed batch) every opened session is released — the IMAP session by
`close`/`logout`, the SMTP session by `quit`; the fatal `sys.exit(1)` paths
do not release the sessions they opened. -/
theorem C8_release_on_normal_paths (env : Env)
    (h : (fetch_and_forward env).result.isNormalExitPath = true) :
    (Effect.imapOpen ∈ (fetch_and_forward env).trace →
      Effect.imapClose ∈ (fetch_and_forward env).trace
        ∧ Effect.imapLogout ∈ (fetch_and_forward env).trace)
    ∧ (Effect.smtpOpen ∈ (fetch_and_forward env).trace →
        Effect.smtpQuit ∈ (fetch_and_forward env).trace) := by
  rcases run_cases env with hl | ⟨-, htr⟩
  · rw [trace_of_reachesLoop env hl]
    refine ⟨fun _ => ⟨?_, ?_⟩, fun _ => ?_⟩ <;> simp
  · rcases htr with h1 | h1 | h1 | h1 | h1 | h1 <;> rw [h1] at h ⊢ <;>
      (refine ⟨fun hio => ⟨?_, ?_⟩, fun hm => ?_⟩ <;> simp_all [RunResult.isNormalExitPath])

/-- C8 witness: the completed run `envHappy` logs out of IMAP. -/
theorem C8_release_on_normal_paths_witness :
    Effect.imapLogout ∈ (fetch_and_forward envHappy).trace :=
  ((C8_release_on_normal_paths envHappy (by decide)).1 (by decide)).2

/-- C9: when the UNSEEN search returns no identifiers the run returns
immediately after closing the IMAP session — its tallies are zero, no
message is marked seen, the counter file is neither written to nor
changed. -/
theorem C9_empty_inbox_no_mutation (env : Env)
    (h1 : reachesSearch env = true) (h2 : env.unread = []) :
    fetch_and_forward env
      = ⟨.emptyInbox, [.loadCounter, .imapOpen, .search, .imapClose, .imapLogout], env.counter⟩
    ∧ (fetch_and_forward env).result.forwardedCount = 0
    ∧ (fetch_and_forward env).result.failedCount = 0
    ∧ (∀ id, Effect.markSeen id ∉ (fetch_and_forward env).trace)
    ∧ (∀ d r sn, Effect.saveCounter d r sn ∉ (fetch_and_forward env).trace)
    ∧ (fetch_and_forward env).counterAfter = env.counter := by
  unfold reachesSearch at h1
  simp only [Bool.and_eq_true, decide_eq_true_eq] at h1
  obtain ⟨⟨⟨hw, hq⟩, hi⟩, hs⟩ := h1
  have he : fetch_and_forward env
      = ⟨.emptyInbox, [.loadCounter, .imapOpen, .search, .imapClose, .imapLogout], env.counter⟩ := by
    unfold fetch_and_forward
    rw [if_pos hw, if_neg (Nat.not_le.mpr hq), if_neg (by simp [hi]),
      if_neg (by simp [hs]), if_pos h2]
  refine ⟨he, ?_, ?_, ?_, ?_, ?_⟩ <;> rw [he] <;> simp [RunResult.forwardedCount,
    RunResult.failedCount]

/-- C9 witness: the empty-inbox run returns the no-mutation result. -/
theorem C9_empty_inbox_no_mutation_witness :
    fetch_and_forward envEmptyInbox
      = ⟨.emptyInbox, [.loadCounter, .imapOpen, .search, .imapClose, .imapLogout],
          envEmptyInbox.counter⟩ :=
  (C9_empty_inbox_no_mutation envEmptyInbox (by decide) (by decide)).1

/-- C10: saving counters for today and loading them back the same day is
the identity on the counters and the date, whatever the previous file
contents, provided the write succeeded. -/
theorem C10_save_load_roundtrip (runs sent : Nat) (today : String) (file : CounterFile) :
    get_daily_run_count today (update_daily_run_count runs sent today true file)
      = (runs, sent, today) := by
  unfold update_daily_run_count
  rw [if_pos rfl]
  simp [get_daily_run_count]
